import Mathlib

/-!
Verification of the version-11 umbrella header `pgx-pg-sys/include/pg11.h`
and of the versioned native-header binding-generation pipeline it feeds.

The header is embedded line by line as a list of preprocessor directives
(`pg11Lines`).  The binding emitter and the version multiplexer are not part
of the source tree; they are modelled from the specification as pure
functions over the embedded header (`emit`, `selectVersion`).
-/

/-- A preprocessor directive line of the umbrella header: an `incl` is an
include of the named engine header, a `defl` is a rename directive
(`defl sym toks` replaces the identifier `sym` by the token sequence `toks`),
and an `undef` closes the rename of `sym`. -/
inductive PPLine where
  | incl : String → PPLine
  | defl : String → List String → PPLine
  | undef : String → PPLine
deriving DecidableEq, Repr

/-- The set of textual renames currently in force: pairs of a symbol and its
replacement token sequence. -/
abbrev Renames := List (String × List String)

/-- Effect of one directive line on the set of renames in force. -/
def applyLine (ren : Renames) : PPLine → Renames
  | .incl _ => ren
  | .defl s r => (s, r) :: ren
  | .undef s => ren.filter fun q => decide (q.1 ≠ s)

/-- Renames in force after processing a list of directive lines. -/
def renAfter (lines : List PPLine) : Renames :=
  lines.foldl applyLine []

/-- Renames in force just before processing line `i` of the file. -/
def activeAt (lines : List PPLine) (i : Nat) : Renames :=
  renAfter (lines.take i)

/-- The include plan of a header: each included path paired with the renames
in force while it is processed, starting from the renames `ren`. -/
def includePlanFrom (ren : Renames) : List PPLine → List (String × Renames)
  | [] => []
  | .incl p :: rest => (p, ren) :: includePlanFrom ren rest
  | .defl s r :: rest => includePlanFrom ((s, r) :: ren) rest
  | .undef s :: rest => includePlanFrom (ren.filter fun q => decide (q.1 ≠ s)) rest

/-- The include plan of a header processed from a clean preprocessor state. -/
def includePlan (lines : List PPLine) : List (String × Renames) :=
  includePlanFrom [] lines

/-- A C declaration as the binding generator sees it: a declared name and the
token sequence of its type signature. -/
structure CDecl where
  name : String
  tokens : List String
deriving DecidableEq, Repr

/-- Textual substitution of one token under the renames in force: a token
matching a renamed symbol expands to the replacement token sequence, any
other token is left alone. -/
def substTok (ren : Renames) (t : String) : List String :=
  match ren.find? (fun q => decide (q.1 = t)) with
  | some q => q.2
  | none => [t]

/-- Textual substitution over a token sequence. -/
def substTokens (ren : Renames) (ts : List String) : List String :=
  (ts.map (substTok ren)).flatten

/-- Substitution applied to a declaration's type tokens (the declared name is
not a colliding symbol and is kept). -/
def substDecl (ren : Renames) (d : CDecl) : CDecl :=
  ⟨d.name, substTokens ren d.tokens⟩

/-- Modelled from the spec: the Binding Emitter (the header-parsing backend
invoked by the generator, which is not part of this source tree).  `env`
maps each engine header path to the C declarations it contributes; the
emitter walks the include plan and emits, for every include, its
declarations with the renames in force applied, tagged with the originating
include path. -/
def emitPlan (env : String → List CDecl) (plan : List (String × Renames)) :
    List (String × CDecl) :=
  (plan.map fun e => (env e.1).map fun d => (e.1, substDecl e.2 d)).flatten

/-- Modelled from the spec: binding generation over an umbrella header — the
include plan of the header is computed and every reachable declaration is
emitted under the renames in force at its include. -/
def emit (env : String → List CDecl) (lines : List PPLine) : List (String × CDecl) :=
  emitPlan env (includePlan lines)

/-- Rendering of one emitted declaration as text. -/
def renderDecl (d : CDecl) : String :=
  d.name ++ " : " ++ String.intercalate " " d.tokens

/-- Modelled from the spec: the GeneratedBindingModule serialized to bytes,
one line per emitted declaration. -/
def renderModule (m : List (String × CDecl)) : String :=
  String.intercalate "\x0a" (m.map fun e => e.1 ++ " " ++ renderDecl e.2)

/-- Modelled from the spec: a HeaderSet — a version tag together with the
ordered directive lines of its umbrella header. -/
structure HeaderSet where
  version : String
  lines : List PPLine
deriving DecidableEq, Repr

/-- Modelled from the spec: one full generation run over a HeaderSet,
producing the serialized binding module. -/
def generate (env : String → List CDecl) (hs : HeaderSet) : String :=
  renderModule (emit env hs.lines)

/-- The version-11 umbrella header `pg11.h`, transliterated directive by
directive (comment and blank lines of the file carry no directives and are
not represented). -/
def pg11Lines : List PPLine := [
  PPLine.incl "postgres.h",
  PPLine.incl "pg_config.h",
  PPLine.incl "funcapi.h",
  PPLine.incl "miscadmin.h",
  PPLine.incl "pgstat.h",
  PPLine.incl "access/amapi.h",
  PPLine.incl "access/genam.h",
  PPLine.incl "access/gin.h",
  PPLine.incl "access/gist.h",
  PPLine.incl "access/heapam.h",
  PPLine.incl "access/htup.h",
  PPLine.incl "access/htup_details.h",
  PPLine.incl "access/reloptions.h",
  PPLine.incl "access/relscan.h",
  PPLine.incl "access/skey.h",
  PPLine.incl "access/sysattr.h",
  PPLine.incl "access/xact.h",
  PPLine.incl "catalog/dependency.h",
  PPLine.incl "catalog/index.h",
  PPLine.incl "catalog/namespace.h",
  PPLine.incl "catalog/objectaddress.h",
  PPLine.incl "catalog/pg_class.h",
  PPLine.incl "catalog/pg_enum.h",
  PPLine.incl "catalog/pg_operator.h",
  PPLine.incl "catalog/pg_proc.h",
  PPLine.incl "catalog/pg_trigger.h",
  PPLine.incl "catalog/pg_type.h",
  PPLine.incl "commands/comment.h",
  PPLine.incl "commands/dbcommands.h",
  PPLine.incl "commands/defrem.h",
  PPLine.incl "commands/event_trigger.h",
  PPLine.incl "commands/explain.h",
  PPLine.incl "commands/proclang.h",
  PPLine.incl "commands/tablecmds.h",
  PPLine.incl "commands/trigger.h",
  PPLine.incl "commands/vacuum.h",
  PPLine.incl "executor/executor.h",
  PPLine.incl "executor/spi.h",
  PPLine.incl "foreign/fdwapi.h",
  PPLine.incl "foreign/foreign.h",
  PPLine.incl "mb/pg_wchar.h",
  PPLine.defl "ScanKey" ["struct", "ScanKeyData", "*"],
  PPLine.incl "nodes/execnodes.h",
  PPLine.undef "ScanKey",
  PPLine.incl "nodes/extensible.h",
  PPLine.incl "nodes/makefuncs.h",
  PPLine.incl "nodes/nodeFuncs.h",
  PPLine.incl "nodes/nodes.h",
  PPLine.incl "nodes/print.h",
  PPLine.incl "nodes/relation.h",
  PPLine.incl "nodes/replnodes.h",
  PPLine.incl "nodes/tidbitmap.h",
  PPLine.incl "nodes/value.h",
  PPLine.incl "optimizer/clauses.h",
  PPLine.incl "optimizer/cost.h",
  PPLine.incl "optimizer/pathnode.h",
  PPLine.incl "optimizer/paths.h",
  PPLine.incl "optimizer/planmain.h",
  PPLine.incl "optimizer/planner.h",
  PPLine.incl "optimizer/restrictinfo.h",
  PPLine.incl "optimizer/tlist.h",
  PPLine.incl "parser/parse_func.h",
  PPLine.incl "parser/parse_type.h",
  PPLine.incl "parser/parser.h",
  PPLine.incl "parser/parsetree.h",
  PPLine.incl "postmaster/bgworker.h",
  PPLine.incl "replication/output_plugin.h",
  PPLine.incl "rewrite/rewriteHandler.h",
  PPLine.incl "storage/block.h",
  PPLine.incl "storage/bufmgr.h",
  PPLine.incl "storage/buffile.h",
  PPLine.incl "storage/ipc.h",
  PPLine.incl "storage/itemptr.h",
  PPLine.incl "storage/lwlock.h",
  PPLine.incl "storage/procarray.h",
  PPLine.incl "tcop/tcopprot.h",
  PPLine.incl "tcop/utility.h",
  PPLine.incl "tsearch/ts_public.h",
  PPLine.incl "tsearch/ts_utils.h",
  PPLine.incl "utils/builtins.h",
  PPLine.incl "utils/date.h",
  PPLine.incl "utils/datetime.h",
  PPLine.defl "double" ["float8"],
  PPLine.incl "utils/geo_decls.h",
  PPLine.undef "double",
  PPLine.incl "utils/guc.h",
  PPLine.incl "utils/json.h",
  PPLine.incl "utils/jsonb.h",
  PPLine.incl "utils/lsyscache.h",
  PPLine.incl "utils/memutils.h",
  PPLine.incl "utils/palloc.h",
  PPLine.incl "utils/rel.h",
  PPLine.incl "utils/relcache.h",
  PPLine.incl "utils/sampling.h",
  PPLine.incl "utils/selfuncs.h",
  PPLine.incl "utils/snapmgr.h",
  PPLine.incl "utils/syscache.h",
  PPLine.incl "utils/typcache.h"]

/-- The ScanKey rename directive of `pg11.h` (line 52 of the file). -/
def scanKeyShimDef : PPLine := .defl "ScanKey" ["struct", "ScanKeyData", "*"]

/-- The double rename directive of `pg11.h` (line 95 of the file). -/
def doubleShimDef : PPLine := .defl "double" ["float8"]

/-- The version-11 HeaderSet. -/
def pg11HeaderSet : HeaderSet := ⟨"11", pg11Lines⟩

/-- Whether a list of lines begins with the given pattern. -/
def beginsWith : List PPLine → List PPLine → Bool
  | [], _ => true
  | _ :: _, [] => false
  | a :: as, b :: bs => decide (a = b) && beginsWith as bs

/-- Whether the pattern occurs as a run of consecutive lines. -/
def containsSeq (pat l : List PPLine) : Bool :=
  l.tails.any (beginsWith pat)

/-- Whether a string is a single C identifier. -/
def isCIdent (s : String) : Bool :=
  !s.isEmpty && s.toList.all fun c => c.isAlphanum || decide (c = '_')

/-- Whether a replacement token sequence is a lone placeholder identifier. -/
def isPlaceholderAlias (ts : List String) : Bool :=
  match ts with
  | [t] => isCIdent t
  | _ => false

/-- The replacement token sequence of the first rename directive for `sym`. -/
def aliasOf (sym : String) (lines : List PPLine) : Option (List String) :=
  lines.findSome? fun l => match l with
    | .defl s r => if decide (s = sym) then some r else none
    | _ => none

/-- The renames in force at the (first) include of path `p`. -/
def renamesAtInclude (lines : List PPLine) (p : String) : Renames :=
  match (includePlan lines).find? (fun e => decide (e.1 = p)) with
  | some e => e.2
  | none => []

/-- Modelled from the spec: the engine typedef `ScanKey` (declared in the
engine header `access/skey.h`, outside this source tree) ordinarily denotes
the pointer type `struct ScanKeyData *`; this is its expansion as a token
sequence. -/
def scanKeyTypedefExpansion : List String := ["struct", "ScanKeyData", "*"]

/-- A build-time configuration error. -/
inductive ConfigError where
  | configurationError : String → ConfigError
deriving DecidableEq, Repr

/-- Modelled from the spec: the Version Multiplexer's build-time selection —
the enabled version features must name exactly one target version; none or
more than one is a ConfigurationError. -/
def selectVersion : List String → Except ConfigError String
  | [v] => .ok v
  | [] => .error (.configurationError "no engine version selected")
  | _ :: _ :: _ => .error (.configurationError "multiple engine versions selected")

/-- Modelled from the spec: the symbols the build exposes to calling code —
the generated binding module of the single selected version. -/
def exposedModule (modules : String → List (String × CDecl))
    (enabled : List String) : Except ConfigError (List (String × CDecl)) :=
  (selectVersion enabled).map modules

/-- Extending the upstream header set: header `p` gains one new declaration
`d`, appended after its existing declarations. -/
def extendEnv (env : String → List CDecl) (p : String) (d : CDecl) :
    String → List CDecl :=
  fun q => if q = p then env q ++ [d] else env q

/-- Whether every rename directive of the file is closed by a matching
undef directive appearing strictly later in the file. -/
def closesAllDefines (lines : List PPLine) : Bool :=
  (List.range lines.length).all fun i =>
    match lines[i]? with
    | some (.defl s _) => (List.range lines.length).any fun j =>
        decide (i < j) && decide (lines[j]? = some (PPLine.undef s))
    | _ => true

/-- An environment for concrete generation runs: `nodes/execnodes.h`
contributes one function declaration whose parameter type is spelled with
the colliding identifier `ScanKey`. -/
def execnodesEnv : String → List CDecl :=
  fun p => if p = "nodes/execnodes.h" then [⟨"ExecIndexBuildScanKeys", ["ScanKey"]⟩] else []

/-- An environment for concrete generation runs: `nodes/execnodes.h` — an
include outside the geo-decls scope but inside the ScanKey scope —
contributes one declaration whose type is the standard floating-point
keyword `double`. -/
def doubleEnv : String → List CDecl :=
  fun p => if p = "nodes/execnodes.h" then [⟨"clamp_row_est", ["double"]⟩] else []

lemma substTokens_nil (ts : List String) : substTokens [] ts = ts := by
  induction ts with
  | nil => rfl
  | cons t ts ih =>
      show t :: substTokens [] ts = t :: ts
      rw [ih]

lemma substDecl_nil (d : CDecl) : substDecl [] d = d := by
  cases d
  simp [substDecl, substTokens_nil]

lemma count_substTokens (ren : Renames) (t : String)
    (h1 : substTok ren t = [t]) (h2 : ∀ q ∈ ren, t ∉ q.2) :
    ∀ ts : List String, (substTokens ren ts).count t = ts.count t := by
  intro ts
  induction ts with
  | nil => rfl
  | cons u us ih =>
      have hstep : substTokens ren (u :: us) = substTok ren u ++ substTokens ren us := rfl
      have hsplit : (u :: us : List String) = [u] ++ us := rfl
      rw [hstep, List.count_append, ih, hsplit, List.count_append]
      congr 1
      by_cases hu : u = t
      · subst hu
        rw [h1]
      · cases hfind : ren.find? (fun q => decide (q.1 = u)) with
        | none => simp [substTok, hfind]
        | some q =>
            have hmem : q ∈ ren := List.mem_of_find?_eq_some hfind
            have h0 : q.2.count t = 0 := List.count_eq_zero.mpr (h2 q hmem)
            have h1u : ([u] : List String).count t = 0 := by
              rw [List.count_eq_zero, List.mem_singleton]
              exact fun h => hu h.symm
            rw [show substTok ren u = q.2 from by simp [substTok, hfind], h0, h1u]

lemma emitPlan_cons (env : String → List CDecl) (e : String × Renames)
    (plan : List (String × Renames)) :
    emitPlan env (e :: plan)
      = ((env e.1).map fun d0 => (e.1, substDecl e.2 d0)) ++ emitPlan env plan := rfl

lemma mem_emit {env : String → List CDecl} {lines : List PPLine} {p : String}
    {ren : Renames} {d : CDecl} (h1 : (p, ren) ∈ includePlan lines)
    (h2 : d ∈ env p) : (p, substDecl ren d) ∈ emit env lines := by
  show (p, substDecl ren d) ∈ emitPlan env (includePlan lines)
  unfold emitPlan
  exact List.mem_flatten.mpr ⟨_, List.mem_map.mpr ⟨(p, ren), h1, rfl⟩,
    List.mem_map.mpr ⟨d, h2, rfl⟩⟩

lemma emit_mem_elim {env : String → List CDecl} {lines : List PPLine}
    {pd : String × CDecl} (h : pd ∈ emit env lines) :
    ∃ e ∈ includePlan lines, ∃ d0 ∈ env e.1, pd = (e.1, substDecl e.2 d0) := by
  have h' : pd ∈ emitPlan env (includePlan lines) := h
  unfold emitPlan at h'
  rcases List.mem_flatten.mp h' with ⟨blk, hblk, hpd⟩
  rcases List.mem_map.mp hblk with ⟨e, he, rfl⟩
  rcases List.mem_map.mp hpd with ⟨d0, hd0, rfl⟩
  exact ⟨e, he, d0, hd0, rfl⟩

/-- C1: every rename directive opened in `pg11.h` is terminated by a
matching undef before the end of the file, the ScanKey scope is closed
before the double scope is opened, at every point of the file at most one
rename is active, and no rename is active at the end of the file. -/
theorem pg11_rename_scopes_wellformed :
    closesAllDefines pg11Lines = true ∧
    ((List.range (pg11Lines.length + 1)).all fun i =>
      decide ((activeAt pg11Lines i).length ≤ 1)) = true ∧
    renAfter pg11Lines = [] ∧
    pg11Lines.findIdx (fun l => decide (l = PPLine.undef "ScanKey"))
      < pg11Lines.findIdx (fun l => decide (l = doubleShimDef)) := by
  decide

/-- C2: each of the two rename directives of `pg11.h` is minimally scoped —
its define is the line immediately before the single colliding include it
protects and its undef is the line immediately after it, each directive
occurs exactly once, and at every other include of the file no rename at
all is in force. -/
theorem pg11_shims_minimally_scoped :
    containsSeq [scanKeyShimDef, PPLine.incl "nodes/execnodes.h",
      PPLine.undef "ScanKey"] pg11Lines = true ∧
    containsSeq [doubleShimDef, PPLine.incl "utils/geo_decls.h",
      PPLine.undef "double"] pg11Lines = true ∧
    pg11Lines.countP (fun l => decide (l = scanKeyShimDef)) = 1 ∧
    pg11Lines.countP (fun l => decide (l = doubleShimDef)) = 1 ∧
    pg11Lines.countP (fun l => decide (l = PPLine.undef "ScanKey")) = 1 ∧
    pg11Lines.countP (fun l => decide (l = PPLine.undef "double")) = 1 ∧
    ((includePlan pg11Lines).all fun e =>
      if e.1 = "nodes/execnodes.h" then
        decide (e.2 = [("ScanKey", ["struct", "ScanKeyData", "*"])])
      else if e.1 = "utils/geo_decls.h" then
        decide (e.2 = [("double", ["float8"])])
      else decide (e.2 = [])) = true := by
  decide

/-- C5: the umbrella header consists exclusively of include directives plus
exactly two scoped rename work-arounds — one for ScanKey and one for
double, each a define/undef pair wrapped around one specific include — and
contains no other directive of any kind. -/
theorem pg11_only_includes_and_two_shims :
    (pg11Lines.all fun l =>
      (match l with | .incl _ => true | _ => false) ||
      decide (l = scanKeyShimDef) || decide (l = PPLine.undef "ScanKey") ||
      decide (l = doubleShimDef) || decide (l = PPLine.undef "double")) = true ∧
    pg11Lines.countP (fun l => match l with | .defl _ _ => true | _ => false) = 2 ∧
    pg11Lines.countP (fun l => match l with | .undef _ => true | _ => false) = 2 ∧
    containsSeq [scanKeyShimDef, PPLine.incl "nodes/execnodes.h",
      PPLine.undef "ScanKey"] pg11Lines = true ∧
    containsSeq [doubleShimDef, PPLine.incl "utils/geo_decls.h",
      PPLine.undef "double"] pg11Lines = true := by
  decide

/-- C9: in `pg11.h` the engine root header `postgres.h` is the first
include of the file, followed by `pg_config.h`, and neither occurs again
later, so every other include of the file is processed after the engine's
base definitions are available. -/
theorem pg11_postgres_h_first :
    pg11Lines[0]? = some (PPLine.incl "postgres.h") ∧
    pg11Lines[1]? = some (PPLine.incl "pg_config.h") ∧
    ((includePlan pg11Lines).map Prod.fst)[0]? = some "postgres.h" ∧
    ((includePlan pg11Lines).map Prod.fst)[1]? = some "pg_config.h" ∧
    ((((includePlan pg11Lines).map Prod.fst).drop 2).all fun p =>
      decide (p ≠ "postgres.h") && decide (p ≠ "pg_config.h")) = true := by
  decide

/-- C10: the temporary alias of the ScanKey rename in `pg11.h` is the token
sequence `struct ScanKeyData *` — exactly the expansion of the engine's
typedef ScanKey — so the substitution in force inside the shimmed include
is extensionally the typedef expansion itself, and shimmed occurrences of
ScanKey denote the identical underlying pointer type. -/
theorem scanKey_alias_is_typedef_expansion :
    renamesAtInclude pg11Lines "nodes/execnodes.h"
      = [("ScanKey", scanKeyTypedefExpansion)] ∧
    ∀ ts : List String,
      substTokens (renamesAtInclude pg11Lines "nodes/execnodes.h") ts
        = substTokens [("ScanKey", scanKeyTypedefExpansion)] ts := by
  have h : renamesAtInclude pg11Lines "nodes/execnodes.h"
      = [("ScanKey", scanKeyTypedefExpansion)] := by decide
  exact ⟨h, fun ts => by rw [h]⟩

/-- C3 counterexample: the ScanKey rename of `pg11.h` does not rename the
identifier to a placeholder identifier — its replacement is the three-token
type expansion `struct ScanKeyData *`, not a lone identifier. -/
theorem scanKey_alias_not_placeholder :
    aliasOf "ScanKey" pg11Lines = some ["struct", "ScanKeyData", "*"] ∧
    isPlaceholderAlias ["struct", "ScanKeyData", "*"] = false := by
  decide

/-- C3 (amended): `pg11.h` wraps `nodes/execnodes.h` in a scope replacing
the identifier ScanKey with the expansion of the ScanKey typedef; under
that directive generation succeeds, every declaration of the shimmed
include is emitted with the replacement applied, and an occurrence of
ScanKey is emitted as the original pointer type `struct ScanKeyData *`,
not as a placeholder. -/
theorem pg11_scanKey_shim_emits_original_type (env : String → List CDecl)
    (d : CDecl) (h : d ∈ env "nodes/execnodes.h") :
    ("nodes/execnodes.h", substDecl [("ScanKey", scanKeyTypedefExpansion)] d)
      ∈ emit env pg11Lines ∧
    substTokens [("ScanKey", scanKeyTypedefExpansion)] ["ScanKey"]
      = scanKeyTypedefExpansion := by
  constructor
  · have hplan : ("nodes/execnodes.h", [("ScanKey", scanKeyTypedefExpansion)])
        ∈ includePlan pg11Lines := by decide
    exact mem_emit hplan h
  · rfl

/-- Witness for C3 (amended) at the concrete declaration environment
`execnodesEnv`. -/
theorem pg11_scanKey_shim_emits_original_type_witness :
    ("nodes/execnodes.h", substDecl [("ScanKey", scanKeyTypedefExpansion)]
        ⟨"ExecIndexBuildScanKeys", ["ScanKey"]⟩) ∈ emit execnodesEnv pg11Lines ∧
    substTokens [("ScanKey", scanKeyTypedefExpansion)] ["ScanKey"]
      = scanKeyTypedefExpansion :=
  pg11_scanKey_shim_emits_original_type execnodesEnv
    ⟨"ExecIndexBuildScanKeys", ["ScanKey"]⟩ (by decide)

/-- C4: the double rename of `pg11.h` is in force exactly at the
geometry-declarations include `utils/geo_decls.h`; generation succeeds, and
every declaration emitted from any include outside that scope — the
ScanKey-shimmed `nodes/execnodes.h` included — comes from a source
declaration with the same name, the same number of `double` tokens and the
same number of `float8` tokens, so `double`-typed declarations outside the
geo-decls scope remain the standard floating-point type `double` and are
never turned into `float8`. -/
theorem pg11_double_shim_scoped_to_geo_decls :
    renamesAtInclude pg11Lines "utils/geo_decls.h" = [("double", ["float8"])] ∧
    ∀ (env : String → List CDecl) (p : String) (d : CDecl),
      (p, d) ∈ emit env pg11Lines → p ≠ "utils/geo_decls.h" →
        ∃ d0 ∈ env p, d.name = d0.name ∧
          d.tokens.count "double" = d0.tokens.count "double" ∧
          d.tokens.count "float8" = d0.tokens.count "float8" := by
  constructor
  · decide
  · intro env p d hmem hgeo
    rcases emit_mem_elim hmem with ⟨e, he, d0, hd0, heq⟩
    have h1 : p = e.1 := congrArg Prod.fst heq
    have h2 : d = substDecl e.2 d0 := congrArg Prod.snd heq
    have hgeo' : e.1 ≠ "utils/geo_decls.h" := by rw [← h1]; exact hgeo
    have hall : ∀ e ∈ includePlan pg11Lines, e.1 ≠ "utils/geo_decls.h" →
        substTok e.2 "double" = ["double"] ∧ substTok e.2 "float8" = ["float8"] ∧
        ∀ q ∈ e.2, ¬ ("double" ∈ q.2) ∧ ¬ ("float8" ∈ q.2) := by
      decide
    rcases hall e he hgeo' with ⟨hdd, hff, hq⟩
    refine ⟨d0, by rw [h1]; exact hd0, ?_, ?_, ?_⟩
    · rw [h2]
      rfl
    · rw [h2]
      exact count_substTokens e.2 "double" hdd (fun q hqm => (hq q hqm).1) d0.tokens
    · rw [h2]
      exact count_substTokens e.2 "float8" hff (fun q hqm => (hq q hqm).2) d0.tokens

/-- Witness for C4 at the concrete declaration environment `doubleEnv`: the
`double`-typed declaration contributed by `nodes/execnodes.h` — outside the
geo-decls scope but under the ScanKey rename — keeps its name and its
`double` token and gains no `float8`. -/
theorem pg11_double_shim_scoped_to_geo_decls_witness :
    ∃ d0 ∈ doubleEnv "nodes/execnodes.h",
      (⟨"clamp_row_est", ["double"]⟩ : CDecl).name = d0.name ∧
      (⟨"clamp_row_est", ["double"]⟩ : CDecl).tokens.count "double"
        = d0.tokens.count "double" ∧
      (⟨"clamp_row_est", ["double"]⟩ : CDecl).tokens.count "float8"
        = d0.tokens.count "float8" :=
  pg11_double_shim_scoped_to_geo_decls.2 doubleEnv "nodes/execnodes.h"
    ⟨"clamp_row_est", ["double"]⟩ (by decide) (by decide)

/-- C6: generation is a deterministic function of the HeaderSet — two runs
over equal HeaderSets with the same declaration environment produce
byte-identical serialized binding modules. -/
theorem generation_deterministic (env : String → List CDecl)
    (hs1 hs2 : HeaderSet) (h : hs1 = hs2) :
    generate env hs1 = generate env hs2 := by
  rw [h]

/-- Witness for C6: two generation runs over the version-11 HeaderSet. -/
theorem generation_deterministic_witness :
    generate (fun _ => []) pg11HeaderSet = generate (fun _ => []) pg11HeaderSet :=
  generation_deterministic (fun _ => []) pg11HeaderSet pg11HeaderSet rfl

/-- C7: enabling more than one engine version simultaneously makes the
build fail with a ConfigurationError — the build never silently picks one —
and whenever the build succeeds the exposed symbols are exactly one
version's generated binding module. -/
theorem version_selection_mutually_exclusive
    (modules : String → List (String × CDecl)) (enabled : List String) :
    (2 ≤ enabled.length →
      ∃ m, exposedModule modules enabled
        = Except.error (ConfigError.configurationError m)) ∧
    (∀ out, exposedModule modules enabled = Except.ok out →
      ∃ v, enabled = [v] ∧ out = modules v) := by
  match enabled with
  | [] =>
      refine ⟨fun h => absurd h (by decide), fun out hout => ?_⟩
      simp [exposedModule, selectVersion, Except.map] at hout
  | [v] =>
      refine ⟨fun h => absurd h (by simp), fun out hout => ⟨v, rfl, ?_⟩⟩
      simp [exposedModule, selectVersion, Except.map] at hout
      exact hout.symm
  | v :: w :: rest =>
      refine ⟨fun _ => ⟨"multiple engine versions selected", ?_⟩, fun out hout => ?_⟩
      · simp [exposedModule, selectVersion, Except.map]
      · simp [exposedModule, selectVersion, Except.map] at hout

/-- Witness for C7: enabling versions 11 and 12 together yields a
ConfigurationError. -/
theorem version_selection_mutually_exclusive_witness :
    ∃ m, exposedModule (fun _ => ([] : List (String × CDecl))) ["11", "12"]
      = Except.error (ConfigError.configurationError m) :=
  (version_selection_mutually_exclusive (fun _ => []) ["11", "12"]).1 (by decide)

lemma includePlanFrom_countP (p : String) (lines : List PPLine) :
    ∀ ren : Renames,
      (includePlanFrom ren lines).countP (fun e => decide (e.1 = p))
        = lines.countP (fun l => decide (l = PPLine.incl p)) := by
  induction lines with
  | nil => intro ren; rfl
  | cons l rest ih =>
      intro ren
      cases l with
      | incl q => simp [includePlanFrom, List.countP_cons, ih, PPLine.incl.injEq]
      | defl s r => simp [includePlanFrom, List.countP_cons, ih]
      | undef s => simp [includePlanFrom, List.countP_cons, ih]

lemma emitPlan_extendEnv_of_countP_zero (env : String → List CDecl) (p : String)
    (d : CDecl) (plan : List (String × Renames))
    (h : plan.countP (fun e => decide (e.1 = p)) = 0) :
    emitPlan (extendEnv env p d) plan = emitPlan env plan := by
  induction plan with
  | nil => rfl
  | cons e rest ih =>
      by_cases hq : e.1 = p
      · simp [List.countP_cons, hq] at h
      · have hrest : rest.countP (fun e => decide (e.1 = p)) = 0 := by
          simpa [List.countP_cons, hq] using h
        have hsame : extendEnv env p d e.1 = env e.1 := by simp [extendEnv, hq]
        rw [emitPlan_cons, emitPlan_cons, hsame, ih hrest]

lemma emitPlan_extendEnv_one (env : String → List CDecl) (p : String) (d : CDecl)
    (plan : List (String × Renames))
    (h : plan.countP (fun e => decide (e.1 = p)) = 1) :
    ∃ l1 l2 ren, emitPlan env plan = l1 ++ l2 ∧
      emitPlan (extendEnv env p d) plan = l1 ++ (p, substDecl ren d) :: l2 := by
  induction plan with
  | nil => simp [List.countP_nil] at h
  | cons e rest ih =>
      by_cases hq : e.1 = p
      · have hrest : rest.countP (fun e => decide (e.1 = p)) = 0 := by
          simpa [List.countP_cons, hq] using h
        refine ⟨(env e.1).map (fun d0 => (e.1, substDecl e.2 d0)),
          emitPlan env rest, e.2, by rw [emitPlan_cons], ?_⟩
        rw [emitPlan_cons, emitPlan_extendEnv_of_countP_zero env p d rest hrest]
        have hext : extendEnv env p d e.1 = env e.1 ++ [d] := by simp [extendEnv, hq]
        rw [hext, List.map_append, List.append_assoc]
        simp [hq]
      · have hrest : rest.countP (fun e => decide (e.1 = p)) = 1 := by
          simpa [List.countP_cons, hq] using h
        rcases ih hrest with ⟨l1, l2, ren, h1, h2⟩
        have hsame : extendEnv env p d e.1 = env e.1 := by simp [extendEnv, hq]
        refine ⟨(env e.1).map (fun d0 => (e.1, substDecl e.2 d0)) ++ l1, l2, ren,
          ?_, ?_⟩
        · rw [emitPlan_cons, h1, List.append_assoc]
        · rw [emitPlan_cons, hsame, h2, List.append_assoc]

/-- C8: regenerating after the upstream header set gains exactly one new
declaration yields a superset binding module — the previous output is split
as a prefix and a suffix that both reappear unchanged, the only difference
being the insertion of the one new symbol, whose declared name is kept. -/
theorem regeneration_superset (lines : List PPLine) (env : String → List CDecl)
    (p : String) (d : CDecl)
    (h : lines.countP (fun l => decide (l = PPLine.incl p)) = 1) :
    ∃ l1 l2 ren, emit env lines = l1 ++ l2 ∧
      emit (extendEnv env p d) lines = l1 ++ (p, substDecl ren d) :: l2 ∧
      (substDecl ren d).name = d.name := by
  have hplan : (includePlan lines).countP (fun e => decide (e.1 = p)) = 1 := by
    rw [includePlan, includePlanFrom_countP]
    exact h
  rcases emitPlan_extendEnv_one env p d (includePlan lines) hplan with
    ⟨l1, l2, ren, h1, h2⟩
  exact ⟨l1, l2, ren, h1, h2, rfl⟩

/-- Witness for C8: adding one declaration to `nodes/execnodes.h` and
regenerating over the version-11 header. -/
theorem regeneration_superset_witness :
    ∃ l1 l2 ren,
      emit execnodesEnv pg11Lines = l1 ++ l2 ∧
      emit (extendEnv execnodesEnv "nodes/execnodes.h" ⟨"ExecScan", ["ScanState"]⟩)
          pg11Lines
        = l1 ++ ("nodes/execnodes.h", substDecl ren ⟨"ExecScan", ["ScanState"]⟩) :: l2 ∧
      (substDecl ren (⟨"ExecScan", ["ScanState"]⟩ : CDecl)).name
        = CDecl.name ⟨"ExecScan", ["ScanState"]⟩ :=
  regeneration_superset pg11Lines execnodesEnv "nodes/execnodes.h"
    ⟨"ExecScan", ["ScanState"]⟩ (by decide)
